import Mathlib

/-!
# Verification of the alx-polly validation / rate-limiting / authorization core

Shallow embedding of the repository's pure logic:

* `src/lib/security.ts` — sanitizers and validators,
* `src/lib/rate-limit.ts` — fixed-window rate limiter,
* `src/lib/middleware/rate-limit.ts` — the HTTP rate-limit wrapper,
* `src/app/lib/actions/auth-actions.ts` — the auth action handlers.

JavaScript strings are embedded as `List Char`; error messages stay `String`.
Timestamps (`Date.now()` milliseconds) are `Nat`.
-/

set_option maxRecDepth 10000

namespace Polly

/-- JavaScript whitespace for `String.prototype.trim` (the cases relevant to
ASCII input: space, tab, newline, carriage return, vertical tab, form feed). -/
def isJsSpace (c : Char) : Bool :=
  c = ' ' || c = '\t' || c = '\n' || c = '\r' || c = '\x0b' || c = '\x0c'

/-- `s.trim()`: drop whitespace from both ends. -/
def trimL (l : List Char) : List Char :=
  ((l.dropWhile isJsSpace).reverse.dropWhile isJsSpace).reverse

/-- `s.replace(/c/g, repl)` where the pattern is the single character
`target`: every occurrence is replaced by `repl`. -/
def replaceChar (target : Char) (repl : List Char) : List Char → List Char
  | [] => []
  | c :: rest =>
    if c = target then repl ++ replaceChar target repl rest
    else c :: replaceChar target repl rest

/-- Global replacement of the tag pattern `/<[^>]*>/g` by the empty string
(`sanitizeText`'s first step).  The regex scan is left-to-right: at a `<`, a
match extends (greedily over non-`>` characters) to the first following `>`;
if no `>` follows, the `<` is literal output and scanning resumes after it.
`pending = some acc` holds the reversed characters seen since the last
still-open `<` (including that `<`), emitted verbatim if the input ends
before a closing `>`. -/
def stripTagsAux : Option (List Char) → List Char → List Char
  | none, [] => []
  | none, c :: rest =>
    if c = '<' then stripTagsAux (some ['<']) rest
    else c :: stripTagsAux none rest
  | some acc, [] => acc.reverse
  | some acc, c :: rest =>
    if c = '>' then stripTagsAux none rest
    else stripTagsAux (some (c :: acc)) rest

/-- `s.replace(/<[^>]*>/g, '')`. -/
def stripTags (l : List Char) : List Char := stripTagsAux none l

/-- `sanitizeHtml` (src/lib/security.ts): escape `& < > " ' /`, ampersand
first, via six sequential global replaces. -/
def sanitizeHtmlL (input : List Char) : List Char :=
  replaceChar '/' "&#x2F;".toList
    (replaceChar '\'' "&#x27;".toList
      (replaceChar '"' "&quot;".toList
        (replaceChar '>' "&gt;".toList
          (replaceChar '<' "&lt;".toList
            (replaceChar '&' "&amp;".toList input)))))

/-- `sanitizeText` (src/lib/security.ts): strip tag-shaped spans, then the
same escaping as `sanitizeHtml` except `/` is left alone. -/
def sanitizeTextL (input : List Char) : List Char :=
  replaceChar '\'' "&#x27;".toList
    (replaceChar '"' "&quot;".toList
      (replaceChar '>' "&gt;".toList
        (replaceChar '<' "&lt;".toList
          (replaceChar '&' "&amp;".toList (stripTags input)))))

/-! ## Validators (src/lib/security.ts) -/

/-- Result shape `{ sanitized, errors }` shared by the validators. -/
structure ValidationResult where
  sanitized : List Char
  errors : List String
  deriving Repr, DecidableEq

/-- `[a-z]` test (the `/(?=.*[a-z])/` lookahead). -/
def isLowerAlpha (c : Char) : Bool := 'a' ≤ c && c ≤ 'z'

/-- `[A-Z]` test. -/
def isUpperAlpha (c : Char) : Bool := 'A' ≤ c && c ≤ 'Z'

/-- `\d` test. -/
def isDigitChar (c : Char) : Bool := '0' ≤ c && c ≤ '9'

/-- `validatePassword` (src/lib/security.ts): an `else if` chain, so at most
one rule's error is ever reported. -/
def validatePassword (password : List Char) : List String :=
  if password.isEmpty then ["Password is required"]
  else if password.length < 8 then ["Password must be at least 8 characters long"]
  else if 128 < password.length then ["Password is too long"]
  else if !password.any isLowerAlpha then ["Password must contain at least one lowercase letter"]
  else if !password.any isUpperAlpha then ["Password must contain at least one uppercase letter"]
  else if !password.any isDigitChar then ["Password must contain at least one number"]
  else []

/-- `c.toLowerCase()` on an ASCII character. -/
def toLowerJs (c : Char) : Char :=
  if isUpperAlpha c then Char.ofNat (c.toNat + 32) else c

/-- The test `/^[^\s@]+@[^\s@]+\.[^\s@]+$/.test(s)`: exactly one `@`; a
non-empty whitespace-free local part; a whitespace-free domain splittable as
`X.Y` with `X`, `Y` non-empty (i.e. some `.` occurs in the domain's interior,
since `[^\s@]` itself admits `.`). -/
def emailRegexTest (l : List Char) : Bool :=
  match l.splitOn '@' with
  | [localPart, domain] =>
    !localPart.isEmpty && localPart.all (fun c => !isJsSpace c) &&
      domain.all (fun c => !isJsSpace c) && ((domain.drop 1).dropLast.contains '.')
  | _ => false

/-- `validateEmail` (src/lib/security.ts). -/
def validateEmail (email : List Char) : ValidationResult :=
  let sanitized := (trimL email).map toLowerJs
  if sanitized.isEmpty then ⟨sanitized, ["Email is required"]⟩
  else if !emailRegexTest sanitized then ⟨sanitized, ["Please enter a valid email address"]⟩
  else if 254 < sanitized.length then ⟨sanitized, ["Email address is too long"]⟩
  else ⟨sanitized, []⟩

/-- The character class `[a-zA-Z\s'-]` of `validateName`. -/
def isNameChar (c : Char) : Bool :=
  isLowerAlpha c || isUpperAlpha c || isJsSpace c || c = '\'' || c = '-'

/-- `validateName` (src/lib/security.ts). -/
def validateName (name : List Char) : ValidationResult :=
  let sanitized := trimL (sanitizeTextL name)
  if sanitized.isEmpty then ⟨sanitized, ["Name is required"]⟩
  else if sanitized.length < 2 then ⟨sanitized, ["Name must be at least 2 characters long"]⟩
  else if 100 < sanitized.length then ⟨sanitized, ["Name must be less than 100 characters"]⟩
  else if !sanitized.all isNameChar then
    ⟨sanitized, ["Name can only contain letters, spaces, hyphens, and apostrophes"]⟩
  else ⟨sanitized, []⟩

/-- `` `Option ${i + 1} cannot be empty` `` (0-based loop index `i`). -/
def emptyOptionMsg (n : Nat) : String := s!"Option {n} cannot be empty"

/-- `` `Option ${i + 1} must be less than 200 characters` ``. -/
def longOptionMsg (n : Nat) : String := s!"Option {n} must be less than 200 characters"

/-- The `for` loop of `validatePollOptions`: `i` is the index of the first
element of the remaining list; returns the `sanitized` and per-option
`errors` accumulated from there on, in loop order. -/
def validateOptionsLoop (i : Nat) : List (List Char) → List (List Char) × List String
  | [] => ([], [])
  | o :: rest =>
    let option := trimL (sanitizeTextL o)
    let (san, errs) := validateOptionsLoop (i + 1) rest
    if option.isEmpty then (san, emptyOptionMsg (i + 1) :: errs)
    else if 200 < option.length then (san, longOptionMsg (i + 1) :: errs)
    else (option :: san, errs)

/-- Result shape of `validatePollOptions`. -/
structure OptionsResult where
  sanitized : List (List Char)
  errors : List String
  deriving Repr, DecidableEq

/-- `validatePollOptions` (src/lib/security.ts).  The `new Set(sanitized).size
!== sanitized.length` duplicate check is the negation of `List.Nodup`. -/
def validatePollOptions (options : List (List Char)) : OptionsResult :=
  if options.length < 2 then ⟨[], ["At least 2 options are required"]⟩
  else if 10 < options.length then ⟨[], ["Maximum 10 options allowed"]⟩
  else
    let (sanitized, errors) := validateOptionsLoop 0 options
    if sanitized.Nodup then ⟨sanitized, errors⟩
    else ⟨sanitized, errors ++ ["Duplicate options are not allowed"]⟩

/-! ## Rate limiter (src/lib/rate-limit.ts) -/

/-- `RateLimitEntry { count, resetTime }`. -/
structure RateLimitEntry where
  count : Nat
  resetTime : Nat
  deriving Repr, DecidableEq

/-- The keys of `RATE_LIMITS`. -/
inductive RLType where
  | auth
  | pollCreation
  | api
  deriving Repr, DecidableEq

/-- `RATE_LIMITS[t].windowMs`. -/
def windowMs : RLType → Nat
  | .auth => 15 * 60 * 1000
  | .pollCreation => 60 * 1000
  | .api => 60 * 1000

/-- `RATE_LIMITS[t].maxAttempts`. -/
def maxAttempts : RLType → Nat
  | .auth => 5
  | .pollCreation => 3
  | .api => 30

/-- The string used in the store key for each limit class. -/
def typeChars : RLType → List Char
  | .auth => "auth".toList
  | .pollCreation => "pollCreation".toList
  | .api => "api".toList

/-- `` `${type}:${identifier}` ``. -/
def mkKey (t : RLType) (identifier : List Char) : List Char :=
  typeChars t ++ ':' :: identifier

/-- The `rateLimitStore` map, as a function from keys to entries. -/
def Store : Type := List Char → Option RateLimitEntry

/-- The store before any request. -/
def emptyStore : Store := fun _ => none

/-- `rateLimitStore.set key e`. -/
def setEntry (s : Store) (key : List Char) (e : RateLimitEntry) : Store :=
  fun k => if k = key then some e else s k

/-- The `{ allowed, remaining, resetTime }` result of `checkRateLimit`. -/
structure RateLimitResult where
  allowed : Bool
  remaining : Nat
  resetTime : Nat
  deriving Repr, DecidableEq

/-- `checkRateLimit` (src/lib/rate-limit.ts).  The mutation of the global
store is made explicit: the function returns the result together with the
store after the call.  `now` is `Date.now()`. -/
def checkRateLimit (store : Store) (now : Nat) (identifier : List Char) (t : RLType) :
    RateLimitResult × Store :=
  let key := mkKey t identifier
  match store key with
  | none =>
    let newEntry : RateLimitEntry := ⟨1, now + windowMs t⟩
    (⟨true, maxAttempts t - 1, newEntry.resetTime⟩, setEntry store key newEntry)
  | some entry =>
    if entry.resetTime < now then
      let newEntry : RateLimitEntry := ⟨1, now + windowMs t⟩
      (⟨true, maxAttempts t - 1, newEntry.resetTime⟩, setEntry store key newEntry)
    else if maxAttempts t ≤ entry.count then
      (⟨false, 0, entry.resetTime⟩, store)
    else
      let newCount := entry.count + 1
      (⟨true, maxAttempts t - newCount, entry.resetTime⟩,
        setEntry store key ⟨newCount, entry.resetTime⟩)

/-- The store states reachable from the initial empty store by a sequence of
`checkRateLimit` calls. -/
inductive Reachable : Store → Prop where
  | empty : Reachable emptyStore
  | step (s : Store) (now : Nat) (identifier : List Char) (t : RLType) :
      Reachable s → Reachable (checkRateLimit s now identifier t).2

/-! ## Rate-limit middleware (src/lib/middleware/rate-limit.ts) -/

/-- A header list as in the `Headers`/`NextResponse` API; lookup returns the
value of the first pair whose name matches. -/
def headerGet (headers : List (String × String)) (name : String) : Option String :=
  (headers.find? (fun p => p.1 = name)).map (fun p => p.2)

/-- `headers.set(name, value)`: overwrite an existing header, else append. -/
def headerSet (headers : List (String × String)) (name value : String) :
    List (String × String) :=
  if headers.any (fun p => p.1 = name) then
    headers.map (fun p => if p.1 = name then (name, value) else p)
  else headers ++ [(name, value)]

/-- The request data `withRateLimit` consults: its headers. -/
structure HttpRequest where
  headers : List (String × String)

/-- A response, reduced to the status and headers the middleware manipulates
(the JSON body of the 429 response carries no header information). -/
structure HttpResponse where
  status : Nat
  headers : List (String × String)

/-- `getClientIP` (src/lib/rate-limit.ts): prefer `cf-connecting-ip`, then
`x-real-ip`, then the first comma-separated entry of `x-forwarded-for`,
else `"unknown"`. -/
def getClientIP (headers : List (String × String)) : List Char :=
  let forwarded := headerGet headers "x-forwarded-for"
  let realIP := headerGet headers "x-real-ip"
  let cfConnectingIP := headerGet headers "cf-connecting-ip"
  match cfConnectingIP with
  | some v => v.toList
  | none =>
    match realIP with
    | some v => v.toList
    | none =>
      match forwarded with
      | some v => trimL (v.toList.takeWhile (fun c => c ≠ ','))
      | none => "unknown".toList

/-- `Math.ceil((resetTime - now) / 1000)` on Nat milliseconds. -/
def retryAfterSecs (resetTime now : Nat) : Nat := (resetTime - now + 999) / 1000

/-- `withRateLimit` (src/lib/middleware/rate-limit.ts), applied to a request:
runs `checkRateLimit` on the client IP, answers 429 with rate-limit headers
when denied, otherwise runs the handler and stamps the same headers onto its
response.  Both branches write the literal `'5'` as `X-RateLimit-Limit`. -/
def withRateLimit (handler : HttpRequest → HttpResponse) (rateLimitType : RLType)
    (store : Store) (now : Nat) (req : HttpRequest) : HttpResponse × Store :=
  let clientIP := getClientIP req.headers
  let (rateLimitResult, store') := checkRateLimit store now clientIP rateLimitType
  if !rateLimitResult.allowed then
    (⟨429,
      [("Content-Type", "application/json"),
       ("Retry-After", toString (retryAfterSecs rateLimitResult.resetTime now)),
       ("X-RateLimit-Limit", "5"),
       ("X-RateLimit-Remaining", toString rateLimitResult.remaining),
       ("X-RateLimit-Reset", toString rateLimitResult.resetTime)]⟩, store')
  else
    let response := handler req
    (⟨response.status,
      headerSet
        (headerSet
          (headerSet response.headers "X-RateLimit-Limit" "5")
          "X-RateLimit-Remaining" (toString rateLimitResult.remaining))
        "X-RateLimit-Reset" (toString rateLimitResult.resetTime)⟩, store')

/-! ## Auth action handlers (src/app/lib/actions/auth-actions.ts)

The platform (`supabase.auth`) is external: each handler takes the outcome of
its platform call as a parameter (`none` = the call succeeded, `some err` =
the call returned an error object with a `message`). -/

/-- A platform-layer error object; `message` is its own descriptive text. -/
structure AuthError where
  message : String
  deriving Repr, DecidableEq

/-- `login` (src/app/lib/actions/auth-actions.ts): returns the `error` field
of the handler's result (`none` on success).  Validation errors surface as
`errors[0]`; a `signInWithPassword` error becomes the fixed generic
message. -/
def login (signInError : Option AuthError) (email password : List Char) : Option String :=
  match (validateEmail email).errors with
  | e :: _ => some e
  | [] =>
    match validatePassword password with
    | e :: _ => some e
    | [] =>
      match signInError with
      | some _ => some "Invalid email or password"
      | none => none

/-- `register` (src/app/lib/actions/auth-actions.ts). -/
def register (signUpError : Option AuthError) (email password name : List Char) :
    Option String :=
  match (validateEmail email).errors with
  | e :: _ => some e
  | [] =>
    match validatePassword password with
    | e :: _ => some e
    | [] =>
      match (validateName name).errors with
      | e :: _ => some e
      | [] =>
        match signUpError with
        | some _ => some "Failed to create account. Please try again."
        | none => none

/-- `logout` (src/app/lib/actions/auth-actions.ts): on a platform error it
returns `error.message` verbatim. -/
def logout (signOutError : Option AuthError) : Option String :=
  match signOutError with
  | some err => some err.message
  | none => none

/-! ## Authorization gate for poll deletion -/

/-- A poll as the gate sees it: only `ownerId` matters. -/
structure Poll where
  ownerId : String
  deriving Repr, DecidableEq

/-- The platform's poll table. -/
def PollDb : Type := String → Option Poll

/-- Modelled from the spec: the repository's `deletePoll` action handler is
not among the provided source files (§4.3, §8 of the spec describe it).
"Fetch the poll's `ownerId`; fails with `Forbidden` unless the acting
identity's id equals `ownerId`; an unauthenticated caller is always denied.
Deny must occur strictly before any mutation is attempted", and denials
"never reveal whether the poll exists".  `actor = none` is an
unauthenticated caller; the result pairs the returned error (`none` =
success) with the poll table after the call. -/
def deletePoll (db : PollDb) (actor : Option String) (pollId : String) :
    Option String × PollDb :=
  match actor with
  | none => (some "Forbidden", db)
  | some uid =>
    match db pollId with
    | none => (some "Forbidden", db)
    | some poll =>
      if uid = poll.ownerId then
        (none, fun k => if k = pollId then none else db k)
      else (some "Forbidden", db)

/-! ## Characterization helpers used in theorem statements -/

/-- The per-option transformation of the `validatePollOptions` loop:
`sanitizeText(options[i]).trim()`. -/
def sanitizeOption (o : List Char) : List Char := trimL (sanitizeTextL o)

/-- A sanitized option that the loop keeps: non-empty and at most 200
characters. -/
def optionOk (o : List Char) : Bool := !o.isEmpty && decide (o.length ≤ 200)

/-- The error (if any) the loop reports for the sanitized option `p.2` at
1-based position `p.1`. -/
def optionErr (p : Nat × List Char) : Option String :=
  if p.2.isEmpty then some (emptyOptionMsg p.1)
  else if 200 < p.2.length then some (longOptionMsg p.1)
  else none

/-- Common inline event-handler attribute spellings. -/
def eventHandlerAttrs : List (List Char) :=
  ["onerror=".toList, "onclick=".toList, "onload=".toList,
   "onmouseover=".toList, "onfocus=".toList]

/-- The input contains a literal `<script>` tag or one of the event-handler
attribute spellings. -/
def hasScriptOrHandler (l : List Char) : Prop :=
  List.IsInfix "<script>".toList l ∨ ∃ h ∈ eventHandlerAttrs, List.IsInfix h l

instance (l : List Char) : Decidable (hasScriptOrHandler l) := by
  unfold hasScriptOrHandler
  infer_instance

/-! ## Helper lemmas -/

theorem mem_replaceChar {x target : Char} {repl : List Char} :
    ∀ {l : List Char}, x ∈ replaceChar target repl l → x ∈ repl ∨ x ∈ l := by
  intro l
  induction l with
  | nil => simp [replaceChar]
  | cons c rest ih =>
    simp only [replaceChar]
    split
    · intro h
      rcases List.mem_append.mp h with h' | h'
      · exact Or.inl h'
      · rcases ih h' with h'' | h''
        · exact Or.inl h''
        · exact Or.inr (List.mem_cons_of_mem _ h'')
    · intro h
      rcases List.mem_cons.mp h with h' | h'
      · exact Or.inr (h' ▸ List.mem_cons_self _ _)
      · rcases ih h' with h'' | h''
        · exact Or.inl h''
        · exact Or.inr (List.mem_cons_of_mem _ h'')

theorem target_not_mem_replaceChar {target : Char} {repl : List Char}
    (hr : target ∉ repl) : ∀ {l : List Char}, target ∉ replaceChar target repl l := by
  intro l
  induction l with
  | nil => simp [replaceChar]
  | cons c rest ih =>
    simp only [replaceChar]
    split
    · intro h
      rcases List.mem_append.mp h with h' | h'
      · exact hr h'
      · exact ih h'
    · intro h
      rcases List.mem_cons.mp h with h' | h'
      · next hc => exact hc (h'.symm)
      · exact ih h'

theorem not_mem_replaceChar {x target : Char} {repl l : List Char}
    (hr : x ∉ repl) (hl : x ∉ l) : x ∉ replaceChar target repl l := by
  intro h
  rcases mem_replaceChar h with h' | h'
  · exact hr h'
  · exact hl h'

theorem lt_not_mem_sanitizeHtmlL (l : List Char) : '<' ∉ sanitizeHtmlL l := by
  unfold sanitizeHtmlL
  refine not_mem_replaceChar (by decide) ?_
  refine not_mem_replaceChar (by decide) ?_
  refine not_mem_replaceChar (by decide) ?_
  refine not_mem_replaceChar (by decide) ?_
  exact target_not_mem_replaceChar (by decide)

theorem gt_not_mem_sanitizeHtmlL (l : List Char) : '>' ∉ sanitizeHtmlL l := by
  unfold sanitizeHtmlL
  refine not_mem_replaceChar (by decide) ?_
  refine not_mem_replaceChar (by decide) ?_
  refine not_mem_replaceChar (by decide) ?_
  exact target_not_mem_replaceChar (by decide)

theorem lt_not_mem_sanitizeTextL (l : List Char) : '<' ∉ sanitizeTextL l := by
  unfold sanitizeTextL
  refine not_mem_replaceChar (by decide) ?_
  refine not_mem_replaceChar (by decide) ?_
  refine not_mem_replaceChar (by decide) ?_
  exact target_not_mem_replaceChar (by decide)

theorem gt_not_mem_sanitizeTextL (l : List Char) : '>' ∉ sanitizeTextL l := by
  unfold sanitizeTextL
  refine not_mem_replaceChar (by decide) ?_
  refine not_mem_replaceChar (by decide) ?_
  exact target_not_mem_replaceChar (by decide)

/-! ## Claim theorems -/

/-- C6: for every input string containing `<script>` or an event-handler
attribute, the outputs of `sanitizeHtml` and `sanitizeText` contain no
literal `<` character and no literal `>` character. -/
theorem sanitize_no_angle_brackets (s : List Char) (_h : hasScriptOrHandler s) :
    ('<' ∉ sanitizeHtmlL s ∧ '>' ∉ sanitizeHtmlL s) ∧
    ('<' ∉ sanitizeTextL s ∧ '>' ∉ sanitizeTextL s) :=
  ⟨⟨lt_not_mem_sanitizeHtmlL s, gt_not_mem_sanitizeHtmlL s⟩,
   ⟨lt_not_mem_sanitizeTextL s, gt_not_mem_sanitizeTextL s⟩⟩

theorem sanitize_no_angle_brackets_witness :
    hasScriptOrHandler "<script>alert(1)</script>".toList ∧
    (('<' ∉ sanitizeHtmlL "<script>alert(1)</script>".toList ∧
      '>' ∉ sanitizeHtmlL "<script>alert(1)</script>".toList) ∧
     ('<' ∉ sanitizeTextL "<script>alert(1)</script>".toList ∧
      '>' ∉ sanitizeTextL "<script>alert(1)</script>".toList)) :=
  ⟨by decide, sanitize_no_angle_brackets "<script>alert(1)</script>".toList (by decide)⟩

/-- C7: `validatePassword` checks required / min-length / max-length /
lowercase / uppercase / digit through an `else if` chain, so it returns at
most one error for every input, succeeds exactly when all six rules hold,
and on the spec's examples: `"short"` gets the minimum-length error and
`"Abcdefg1"` gets no errors. -/
theorem validatePassword_spec :
    (∀ p : List Char, (validatePassword p).length ≤ 1) ∧
    (∀ p : List Char, validatePassword p = [] ↔
      (!p.isEmpty ∧ 8 ≤ p.length ∧ p.length ≤ 128 ∧
       p.any isLowerAlpha ∧ p.any isUpperAlpha ∧ p.any isDigitChar)) ∧
    validatePassword "short".toList = ["Password must be at least 8 characters long"] ∧
    validatePassword "Abcdefg1".toList = [] := by
  refine ⟨fun p => ?_, fun p => ?_, by decide, by decide⟩
  · unfold validatePassword
    repeat' split
    all_goals simp
  · unfold validatePassword
    repeat' split
    all_goals simp_all

/-- C8: `sanitizeHtml` is not idempotent: a second application re-escapes
the `&` introduced by the first, e.g. on the input `"&"`. -/
theorem sanitizeHtml_not_idempotent :
    ∃ s : List Char, sanitizeHtmlL (sanitizeHtmlL s) ≠ sanitizeHtmlL s :=
  ⟨"&".toList, by decide⟩

/-- C1 counterexample: `logout` returns the platform error's own message
text verbatim, which is neither of the fixed generic messages — so not every
auth action handler maps platform errors to a fixed generic message. -/
theorem logout_leaks_platform_message :
    logout (some ⟨"Auth session missing!"⟩) = some "Auth session missing!" ∧
    logout (some ⟨"Auth session missing!"⟩) ≠ logout (some ⟨"connection reset"⟩) ∧
    some "Auth session missing!" ≠ some "Invalid email or password" ∧
    some "Auth session missing!" ≠ some "Failed to create account. Please try again." := by
  refine ⟨rfl, by decide, by decide, by decide⟩

/-- C1 amended: when the inputs pass validation, `login` maps every platform
error to the fixed `"Invalid email or password"` and `register` to the fixed
`"Failed to create account. Please try again."`; `logout`, however, returns
the platform error's own `message` verbatim. -/
theorem auth_error_normalization_amended (e : AuthError) (email password name : List Char)
    (hEmail : (validateEmail email).errors = [])
    (hPassword : validatePassword password = [])
    (hName : (validateName name).errors = []) :
    login (some e) email password = some "Invalid email or password" ∧
    register (some e) email password name = some "Failed to create account. Please try again." ∧
    logout (some e) = some e.message := by
  unfold login register logout
  rw [hEmail, hPassword, hName]
  exact ⟨rfl, rfl, rfl⟩

theorem auth_error_normalization_witness :
    (validateEmail "user@example.com".toList).errors = [] ∧
    validatePassword "Abcdefg1".toList = [] ∧
    (validateName "Jane Doe".toList).errors = [] ∧
    (login (some ⟨"upstream 500"⟩) "user@example.com".toList "Abcdefg1".toList =
        some "Invalid email or password" ∧
      register (some ⟨"upstream 500"⟩) "user@example.com".toList "Abcdefg1".toList
          "Jane Doe".toList = some "Failed to create account. Please try again." ∧
      logout (some ⟨"upstream 500"⟩) = some (AuthError.mk "upstream 500").message) :=
  ⟨by decide, by decide, by decide,
   auth_error_normalization_amended ⟨"upstream 500"⟩ "user@example.com".toList
     "Abcdefg1".toList "Jane Doe".toList (by decide) (by decide) (by decide)⟩

/-! Rate-limiter helper lemmas. -/

theorem setEntry_same (s : Store) (key : List Char) (e : RateLimitEntry) :
    setEntry s key e key = some e := by
  simp [setEntry]

theorem one_le_maxAttempts (t : RLType) : 1 ≤ maxAttempts t := by
  cases t <;> decide

theorem mkKey_take_four (t : RLType) (id : List Char) :
    (mkKey t id).take 4 = (mkKey t []).take 4 := by
  cases t <;> rfl

theorem mkKey_type_inj {t t' : RLType} {id id' : List Char}
    (h : mkKey t id = mkKey t' id') : t = t' := by
  have h4 := congrArg (List.take 4) h
  rw [mkKey_take_four t id, mkKey_take_four t' id'] at h4
  cases t <;> cases t' <;> first | rfl | exact absurd h4 (by decide)

/-- What one `checkRateLimit` call does to the store, split by branch. -/
theorem checkRateLimit_store_cases (s : Store) (now : Nat) (id : List Char) (t : RLType) :
    (checkRateLimit s now id t).2 = setEntry s (mkKey t id) ⟨1, now + windowMs t⟩ ∨
    (checkRateLimit s now id t).2 = s ∨
    (∃ e : RateLimitEntry, s (mkKey t id) = some e ∧ e.count < maxAttempts t ∧
      (checkRateLimit s now id t).2 =
        setEntry s (mkKey t id) ⟨e.count + 1, e.resetTime⟩) := by
  simp only [checkRateLimit]
  cases he : s (mkKey t id) with
  | none => left; rfl
  | some e =>
    by_cases hrt : e.resetTime < now
    · left; simp [hrt]
    · by_cases hmax : maxAttempts t ≤ e.count
      · right; left; simp [hrt, hmax]
      · right; right
        exact ⟨e, rfl, by omega, by simp [hrt, hmax]⟩

/-- The rate-limit-store count invariant survives one `checkRateLimit`
call. -/
theorem checkRateLimit_preserves_bounds (s : Store) (now : Nat) (id' : List Char)
    (t' : RLType)
    (ih : ∀ (t : RLType) (id : List Char) (e : RateLimitEntry),
      s (mkKey t id) = some e → 1 ≤ e.count ∧ e.count ≤ maxAttempts t) :
    ∀ (t : RLType) (id : List Char) (e : RateLimitEntry),
      (checkRateLimit s now id' t').2 (mkKey t id) = some e →
        1 ≤ e.count ∧ e.count ≤ maxAttempts t := by
  intro t id e hlook
  rcases checkRateLimit_store_cases s now id' t' with hst | hst | ⟨e', he', hlt, hst⟩
  · rw [hst] at hlook
    unfold setEntry at hlook
    split at hlook
    · next hk =>
      injection hlook with hlook
      rw [← hlook]
      have ht : t = t' := mkKey_type_inj hk
      exact ⟨le_refl 1, ht ▸ one_le_maxAttempts t'⟩
    · exact ih t id e hlook
  · rw [hst] at hlook
    exact ih t id e hlook
  · rw [hst] at hlook
    unfold setEntry at hlook
    split at hlook
    · next hk =>
      injection hlook with hlook
      rw [← hlook]
      have ht : t = t' := mkKey_type_inj hk
      subst ht
      constructor
      · show 1 ≤ e'.count + 1
        omega
      · show e'.count + 1 ≤ maxAttempts t
        omega
    · exact ih t id e hlook

/-- C2: starting from a store with no entry for the identifier, four
`checkRateLimit (id, pollCreation)` calls within the same 1-minute window
give: calls 1–3 `allowed = true` with `remaining` 2, 1, 0, and call 4
`allowed = false` with `remaining = 0`. -/
theorem rateLimit_four_calls (s0 : Store) (id : List Char) (t1 t2 t3 t4 : Nat)
    (h0 : s0 (mkKey .pollCreation id) = none)
    (h2 : t2 ≤ t1 + 60000) (h3 : t3 ≤ t1 + 60000) (h4 : t4 ≤ t1 + 60000) :
    ((checkRateLimit s0 t1 id .pollCreation).1.allowed = true ∧
      (checkRateLimit s0 t1 id .pollCreation).1.remaining = 2) ∧
    ((checkRateLimit (checkRateLimit s0 t1 id .pollCreation).2
        t2 id .pollCreation).1.allowed = true ∧
      (checkRateLimit (checkRateLimit s0 t1 id .pollCreation).2
        t2 id .pollCreation).1.remaining = 1) ∧
    ((checkRateLimit (checkRateLimit (checkRateLimit s0 t1 id .pollCreation).2
        t2 id .pollCreation).2 t3 id .pollCreation).1.allowed = true ∧
      (checkRateLimit (checkRateLimit (checkRateLimit s0 t1 id .pollCreation).2
        t2 id .pollCreation).2 t3 id .pollCreation).1.remaining = 0) ∧
    ((checkRateLimit (checkRateLimit (checkRateLimit (checkRateLimit s0 t1 id
        .pollCreation).2 t2 id .pollCreation).2 t3 id .pollCreation).2
        t4 id .pollCreation).1.allowed = false ∧
      (checkRateLimit (checkRateLimit (checkRateLimit (checkRateLimit s0 t1 id
        .pollCreation).2 t2 id .pollCreation).2 t3 id .pollCreation).2
        t4 id .pollCreation).1.remaining = 0) := by
  have e1 : checkRateLimit s0 t1 id .pollCreation =
      (⟨true, 2, t1 + 60000⟩,
        setEntry s0 (mkKey .pollCreation id) ⟨1, t1 + 60000⟩) := by
    simp [checkRateLimit, h0, maxAttempts, windowMs]
  have e2 : checkRateLimit (setEntry s0 (mkKey .pollCreation id) ⟨1, t1 + 60000⟩)
        t2 id .pollCreation =
      (⟨true, 1, t1 + 60000⟩,
        setEntry (setEntry s0 (mkKey .pollCreation id) ⟨1, t1 + 60000⟩)
          (mkKey .pollCreation id) ⟨2, t1 + 60000⟩) := by
    have hn : ¬(t1 + 60000 < t2) := by omega
    simp [checkRateLimit, setEntry_same, hn, maxAttempts, windowMs]
  have e3 : checkRateLimit
        (setEntry (setEntry s0 (mkKey .pollCreation id) ⟨1, t1 + 60000⟩)
          (mkKey .pollCreation id) ⟨2, t1 + 60000⟩) t3 id .pollCreation =
      (⟨true, 0, t1 + 60000⟩,
        setEntry (setEntry (setEntry s0 (mkKey .pollCreation id) ⟨1, t1 + 60000⟩)
            (mkKey .pollCreation id) ⟨2, t1 + 60000⟩)
          (mkKey .pollCreation id) ⟨3, t1 + 60000⟩) := by
    have hn : ¬(t1 + 60000 < t3) := by omega
    simp [checkRateLimit, setEntry_same, hn, maxAttempts, windowMs]
  have e4 : checkRateLimit
        (setEntry (setEntry (setEntry s0 (mkKey .pollCreation id) ⟨1, t1 + 60000⟩)
            (mkKey .pollCreation id) ⟨2, t1 + 60000⟩)
          (mkKey .pollCreation id) ⟨3, t1 + 60000⟩) t4 id .pollCreation =
      (⟨false, 0, t1 + 60000⟩,
        setEntry (setEntry (setEntry s0 (mkKey .pollCreation id) ⟨1, t1 + 60000⟩)
            (mkKey .pollCreation id) ⟨2, t1 + 60000⟩)
          (mkKey .pollCreation id) ⟨3, t1 + 60000⟩) := by
    have hn : ¬(t1 + 60000 < t4) := by omega
    simp [checkRateLimit, setEntry_same, hn, maxAttempts, windowMs]
  simp [e1, e2, e3, e4]

theorem rateLimit_four_calls_witness :
    ((checkRateLimit emptyStore 0 "ip".toList .pollCreation).1.allowed = true ∧
      (checkRateLimit emptyStore 0 "ip".toList .pollCreation).1.remaining = 2) ∧
    ((checkRateLimit (checkRateLimit emptyStore 0 "ip".toList .pollCreation).2
        0 "ip".toList .pollCreation).1.allowed = true ∧
      (checkRateLimit (checkRateLimit emptyStore 0 "ip".toList .pollCreation).2
        0 "ip".toList .pollCreation).1.remaining = 1) ∧
    ((checkRateLimit (checkRateLimit (checkRateLimit emptyStore 0 "ip".toList
        .pollCreation).2 0 "ip".toList .pollCreation).2 0 "ip".toList
        .pollCreation).1.allowed = true ∧
      (checkRateLimit (checkRateLimit (checkRateLimit emptyStore 0 "ip".toList
        .pollCreation).2 0 "ip".toList .pollCreation).2 0 "ip".toList
        .pollCreation).1.remaining = 0) ∧
    ((checkRateLimit (checkRateLimit (checkRateLimit (checkRateLimit emptyStore 0
        "ip".toList .pollCreation).2 0 "ip".toList .pollCreation).2 0 "ip".toList
        .pollCreation).2 0 "ip".toList .pollCreation).1.allowed = false ∧
      (checkRateLimit (checkRateLimit (checkRateLimit (checkRateLimit emptyStore 0
        "ip".toList .pollCreation).2 0 "ip".toList .pollCreation).2 0 "ip".toList
        .pollCreation).2 0 "ip".toList .pollCreation).1.remaining = 0) :=
  rateLimit_four_calls emptyStore "ip".toList 0 0 0 0 rfl
    (by decide) (by decide) (by decide)

/-- C3: a denied `checkRateLimit` call (stored count at the class maximum
and window not expired) leaves the store — in particular the denied entry —
completely unchanged, and every store reachable by `checkRateLimit` calls
keeps every entry's count between 1 and its limit class's maximum. -/
theorem rateLimit_denial_invariant :
    (∀ (s : Store) (now : Nat) (id : List Char) (t : RLType) (e : RateLimitEntry),
      s (mkKey t id) = some e → ¬e.resetTime < now → maxAttempts t ≤ e.count →
        (checkRateLimit s now id t).1.allowed = false ∧ (checkRateLimit s now id t).2 = s) ∧
    (∀ s : Store, Reachable s →
      ∀ (t : RLType) (id : List Char) (e : RateLimitEntry),
        s (mkKey t id) = some e → 1 ≤ e.count ∧ e.count ≤ maxAttempts t) := by
  constructor
  · intro s now id t e he hrt hmax
    simp only [checkRateLimit]
    rw [he]
    simp [hrt, hmax]
  · intro s hreach
    induction hreach with
    | empty => intro t id e he; exact absurd he (by simp [emptyStore])
    | step s now id' t' _ ih => exact checkRateLimit_preserves_bounds s now id' t' ih

theorem rateLimit_denial_invariant_witness :
    ((checkRateLimit
          (setEntry emptyStore (mkKey .pollCreation "ip".toList) ⟨3, 100⟩)
          50 "ip".toList .pollCreation).1.allowed = false ∧
      (checkRateLimit
          (setEntry emptyStore (mkKey .pollCreation "ip".toList) ⟨3, 100⟩)
          50 "ip".toList .pollCreation).2 =
        setEntry emptyStore (mkKey .pollCreation "ip".toList) ⟨3, 100⟩) ∧
    (1 ≤ (RateLimitEntry.mk 1 60000).count ∧
      (RateLimitEntry.mk 1 60000).count ≤ maxAttempts .pollCreation) :=
  ⟨rateLimit_denial_invariant.1
      (setEntry emptyStore (mkKey .pollCreation "ip".toList) ⟨3, 100⟩)
      50 "ip".toList .pollCreation ⟨3, 100⟩
      (setEntry_same _ _ _) (by decide) (by decide),
   rateLimit_denial_invariant.2
      (checkRateLimit emptyStore 0 "ip".toList .pollCreation).2
      (Reachable.step emptyStore 0 "ip".toList .pollCreation Reachable.empty)
      .pollCreation "ip".toList ⟨1, 60000⟩
      (by rfl)⟩

/-- C4: for every identifier and limit class, when the store has no entry
for the key or the stored window has expired (`now` strictly past
`resetTime`), `checkRateLimit` installs a fresh entry with `count = 1` and
`resetTime = now + window`, and allows with `remaining = max - 1`. -/
theorem rateLimit_fresh_window (s : Store) (now : Nat) (id : List Char) (t : RLType)
    (h : s (mkKey t id) = none ∨
      ∃ e : RateLimitEntry, s (mkKey t id) = some e ∧ e.resetTime < now) :
    (checkRateLimit s now id t).1 =
      ⟨true, maxAttempts t - 1, now + windowMs t⟩ ∧
    (checkRateLimit s now id t).2 =
      setEntry s (mkKey t id) ⟨1, now + windowMs t⟩ := by
  simp only [checkRateLimit]
  rcases h with he | ⟨e, he, hrt⟩
  · rw [he]
    exact ⟨rfl, rfl⟩
  · rw [he]
    simp [hrt]

theorem rateLimit_fresh_window_witness :
    (checkRateLimit emptyStore 7 "ip".toList .auth).1 =
      ⟨true, maxAttempts .auth - 1, 7 + windowMs .auth⟩ ∧
    (checkRateLimit emptyStore 7 "ip".toList .auth).2 =
      setEntry emptyStore (mkKey .auth "ip".toList) ⟨1, 7 + windowMs .auth⟩ :=
  rateLimit_fresh_window emptyStore 7 "ip".toList .auth (Or.inl rfl)

/-- The `validatePollOptions` loop, characterized: it keeps exactly the
sanitized options passing `optionOk` (in order) and reports exactly the
per-option errors of `optionErr` with 1-based indices starting at `i+1`. -/
theorem validateOptionsLoop_eq (i : Nat) (opts : List (List Char)) :
    validateOptionsLoop i opts =
      ((opts.map sanitizeOption).filter optionOk,
       (List.enumFrom (i + 1) (opts.map sanitizeOption)).filterMap optionErr) := by
  induction opts generalizing i with
  | nil => rfl
  | cons o rest ih =>
    simp only [validateOptionsLoop, List.map_cons, List.enumFrom_cons, List.filter_cons,
      List.filterMap_cons, ih]
    by_cases h1 : (trimL (sanitizeTextL o)).isEmpty
    · simp [h1, optionOk, optionErr, sanitizeOption]
    · by_cases h2 : 200 < (trimL (sanitizeTextL o)).length
      · have h2' := Nat.not_le.mpr h2
        simp [h1, h2, h2', optionOk, optionErr, sanitizeOption]
      · have h2' := Nat.not_lt.mp h2
        simp [h1, h2, h2', optionOk, optionErr, sanitizeOption]

/-- C5: `validatePollOptions` rejects out-of-range lists (fewer than 2 or
more than 10 entries) with exactly one error and an empty sanitized list and
no per-option errors; on in-range lists it keeps exactly the sanitized
options that are non-empty and at most 200 characters, reports one
1-based-indexed error per failing option, and appends exactly one duplicate
error iff the kept sanitized list has two equal strings. -/
theorem validatePollOptions_spec (options : List (List Char)) :
    (options.length < 2 →
      validatePollOptions options = ⟨[], ["At least 2 options are required"]⟩) ∧
    (10 < options.length →
      validatePollOptions options = ⟨[], ["Maximum 10 options allowed"]⟩) ∧
    (2 ≤ options.length → options.length ≤ 10 →
      (validatePollOptions options).sanitized =
        (options.map sanitizeOption).filter optionOk ∧
      (validatePollOptions options).errors =
        (List.enumFrom 1 (options.map sanitizeOption)).filterMap optionErr ++
          (if ((options.map sanitizeOption).filter optionOk).Nodup then []
           else ["Duplicate options are not allowed"])) := by
  refine ⟨fun hlt => ?_, fun hgt => ?_, fun hge hle => ?_⟩
  · unfold validatePollOptions
    rw [if_pos hlt]
  · unfold validatePollOptions
    rw [if_neg (by omega), if_pos hgt]
  · unfold validatePollOptions
    rw [if_neg (by omega), if_neg (by omega), validateOptionsLoop_eq]
    by_cases hd : ((options.map sanitizeOption).filter optionOk).Nodup
    · simp [hd]
    · simp [hd]

theorem validatePollOptions_spec_witness :
    validatePollOptions [['A']] = ⟨[], ["At least 2 options are required"]⟩ ∧
    validatePollOptions
        [['a'], ['b'], ['c'], ['d'], ['e'], ['f'], ['g'], ['h'], ['i'], ['j'], ['k']] =
      ⟨[], ["Maximum 10 options allowed"]⟩ ∧
    ((validatePollOptions [['A'], [], ['A']]).sanitized =
        (([['A'], [], ['A']] : List (List Char)).map sanitizeOption).filter optionOk ∧
      (validatePollOptions [['A'], [], ['A']]).errors =
        (List.enumFrom 1
            (([['A'], [], ['A']] : List (List Char)).map sanitizeOption)).filterMap
          optionErr ++
          (if ((([['A'], [], ['A']] : List (List Char)).map sanitizeOption).filter
                optionOk).Nodup then []
           else ["Duplicate options are not allowed"])) :=
  ⟨(validatePollOptions_spec [['A']]).1 (by decide),
   (validatePollOptions_spec _).2.1 (by decide),
   (validatePollOptions_spec _).2.2 (by decide) (by decide)⟩

/-- C9: any invocation of `deletePoll` by an identity that is not the poll's
owner — unauthenticated callers and calls on nonexistent polls included —
returns the generic `Forbidden` error and leaves the poll table untouched
(no mutation happens on the denied path). -/
theorem deletePoll_forbidden_nonowner (db : PollDb) (actor : Option String) (pollId : String)
    (h : ∀ p : Poll, db pollId = some p → actor ≠ some p.ownerId) :
    (deletePoll db actor pollId).1 = some "Forbidden" ∧
    (deletePoll db actor pollId).2 = db := by
  unfold deletePoll
  cases actor with
  | none => exact ⟨rfl, rfl⟩
  | some uid =>
    cases hdb : db pollId with
    | none => simp [hdb]
    | some poll =>
      have huid : ¬uid = poll.ownerId := fun he => h poll hdb (by rw [he])
      simp [hdb, huid]

theorem deletePoll_forbidden_nonowner_witness :
    (deletePoll (fun k => if k = "p1" then some ⟨"alice"⟩ else none)
        (some "mallory") "p1").1 = some "Forbidden" ∧
    (deletePoll (fun k => if k = "p1" then some ⟨"alice"⟩ else none)
        (some "mallory") "p1").2 = fun k => if k = "p1" then some ⟨"alice"⟩ else none :=
  deletePoll_forbidden_nonowner _ _ _
    (fun p hp => by
      simp only [if_pos rfl] at hp
      injection hp with hp
      rw [← hp]
      decide)

/-! Header-manipulation lemmas for the middleware claim. -/

theorem find?_overwrite (rest : List (String × String)) (n v : String)
    (h : rest.any (fun q => q.1 = n)) :
    List.find? (fun q => q.1 = n) (rest.map (fun q => if q.1 = n then (n, v) else q)) =
      some (n, v) := by
  induction rest with
  | nil => simp at h
  | cons p rest ih =>
    by_cases hp : p.1 = n
    · simp [List.find?, hp]
    · have h' : rest.any (fun q => q.1 = n) := by simp_all
      simp [List.find?, hp, ih h']

theorem find?_map_other (rest : List (String × String)) (n n' v : String) (hne : n' ≠ n) :
    List.find? (fun q => q.1 = n) (rest.map (fun q => if q.1 = n' then (n', v) else q)) =
      List.find? (fun q => q.1 = n) rest := by
  induction rest with
  | nil => rfl
  | cons p rest ih =>
    have hnn : ¬(n = n') := fun hh => hne hh.symm
    by_cases hp : p.1 = n'
    · simp [List.find?, hp, hne, ih]
    · by_cases hq : p.1 = n <;> simp [List.find?, hp, hq, hnn, ih]

theorem find?_append_single (rest : List (String × String)) (n v : String)
    (h : rest.any (fun q => q.1 = n) = false) :
    List.find? (fun q => q.1 = n) (rest ++ [(n, v)]) = some (n, v) := by
  induction rest with
  | nil => simp [List.find?]
  | cons p rest ih =>
    simp only [List.any_cons, Bool.or_eq_false_iff, decide_eq_false_iff_not] at h
    simp [List.find?, h.1, ih (by simpa using h.2)]

theorem find?_append_other (rest : List (String × String)) (n n' v : String) (hne : n' ≠ n) :
    List.find? (fun q => q.1 = n) (rest ++ [(n', v)]) =
      List.find? (fun q => q.1 = n) rest := by
  induction rest with
  | nil => simp [List.find?, hne]
  | cons p rest ih => by_cases hq : p.1 = n <;> simp [List.find?, hq, ih]

theorem headerGet_headerSet_self (hs : List (String × String)) (n v : String) :
    headerGet (headerSet hs n v) n = some v := by
  unfold headerGet headerSet
  split
  · next hany => rw [find?_overwrite hs n v hany]; rfl
  · next hany =>
    have h' : hs.any (fun q => q.1 = n) = false := by
      simp only [Bool.not_eq_true] at hany
      exact hany
    rw [find?_append_single hs n v h']
    rfl

theorem headerGet_headerSet_other (hs : List (String × String)) (n n' v : String)
    (hne : n' ≠ n) : headerGet (headerSet hs n' v) n = headerGet hs n := by
  unfold headerGet headerSet
  split
  · rw [find?_map_other hs n n' v hne]
  · rw [find?_append_other hs n n' v hne]

/-- C10: for every limit class and every request, `withRateLimit` sets the
`X-RateLimit-Limit` header to the literal string `"5"` — on the 429 denial
response and on the successful handler response alike — even though the
`pollCreation` class allows 3 attempts and `api` allows 30. -/
theorem withRateLimit_limit_header_five (handler : HttpRequest → HttpResponse)
    (t : RLType) (store : Store) (now : Nat) (req : HttpRequest) :
    headerGet ((withRateLimit handler t store now req).1.headers) "X-RateLimit-Limit" =
        some "5" ∧
    maxAttempts .pollCreation = 3 ∧ maxAttempts .api = 30 := by
  refine ⟨?_, rfl, rfl⟩
  rcases hc : checkRateLimit store now (getClientIP req.headers) t with ⟨r, s'⟩
  simp only [withRateLimit]
  rw [hc]
  by_cases ha : r.allowed
  · simp only [ha, Bool.not_true, Bool.false_eq_true, ite_false]
    rw [headerGet_headerSet_other _ _ _ _ (by decide),
      headerGet_headerSet_other _ _ _ _ (by decide),
      headerGet_headerSet_self]
  · simp only [Bool.not_eq_true] at ha
    simp only [ha, Bool.not_false, ite_true]
    rfl

end Polly
